import Mathlib

/-!
# Verification of the PR-Updater-Bot branch-update handler

A shallow embedding of `pull-updater.go`.  The handler reacts to a push
webhook event: it decodes the payload, checks that the push went to the
repository default branch, lists open pull requests and, for each one,
optionally filters by configured labels, compares base and head, and when
the head is behind requests a branch update, commenting on failures.

All outbound API behaviour (listing, comparison, update, comment) is
supplied by an environment `Env` of oracles; the handler's side effects are
recorded as a trace of `APICall` values, and its Go `error` return value is
modelled as `Option String` (Go errors are compared in the source only
through their `Error()` message).
-/

namespace PRUpdater

/-- Model of Go `strings.ToLower`: character-wise lower-casing
(ASCII letter folding, as in Lean's `Char.toLower`). -/
def stringsToLower (s : String) : String :=
  String.mk (s.data.map Char.toLower)

/-- `github.Label`: the source only reads `GetName`, whose `Name` field is a
nullable string pointer. -/
structure Label where
  name : Option String
deriving Repr, DecidableEq

/-- Nil-safe getter `label.GetName()`: `nil` reads as `""`. -/
def Label.GetName (l : Label) : String :=
  l.name.getD ""

/-- The fields of a listed pull request that `Handle` reads:
`pr.GetNumber()`, `pr.GetHead().GetRef()`, `pr.GetBase().GetRef()`,
`pr.Labels`. -/
structure PullRequest where
  number : Nat
  headRef : String
  baseRef : String
  labels : List Label
deriving Repr, DecidableEq

/-- `func contains(prLabels []*github.Label, label string) bool`:
scans the pull request's labels, lower-casing each pull-request label name
before an exact comparison against the configured `label`. -/
def contains (prLabels : List Label) (label : String) : Bool :=
  prLabels.any fun prLabel => stringsToLower prLabel.GetName == label

/-- `func hasAllLabels(labels []string, prLabels []*github.Label) bool`:
every configured label must be found by `contains`. -/
def hasAllLabels (labels : List String) (prLabels : List Label) : Bool :=
  labels.all fun label => contains prLabels label

/-- `github.CommitsComparison`: the source only reads `GetBehindBy`
(`BehindBy *int`). -/
structure CommitsComparison where
  behindBy : Option Int
deriving Repr, DecidableEq

/-- Nil-safe `commitComparison.GetBehindBy()`: a `nil` comparison or a `nil`
field reads as `0`. -/
def GetBehindBy : Option CommitsComparison → Int
  | none => 0
  | some c => c.behindBy.getD 0

/-- `github.PullRequestBranchUpdateResponse`: the source only reads
`GetMessage` (`Message *string`). -/
structure PullRequestBranchUpdateResponse where
  message : Option String
deriving Repr, DecidableEq

/-- Nil-safe `updateResponse.GetMessage()`: `nil` reads as `""`. -/
def GetMessage : Option PullRequestBranchUpdateResponse → String
  | none => ""
  | some r => r.message.getD ""

/-- The push-event fields `Handle` reads, with the nil-safe getters already
applied (`GetRef`, `GetRepo().GetOwner().GetLogin()`, `GetRepo().GetName()`,
`GetRepo().GetDefaultBranch()`, installation id). -/
structure PushEvent where
  ref : String
  repoOwner : String
  repoName : String
  repoDefaultBranch : String
  installationID : Int
deriving Repr, DecidableEq

/-- One outbound GitHub API call issued by the handler. -/
inductive APICall where
  | listPullRequests (state : String)
  | compareCommits (base head : String)
  | updateBranch (prNum : Nat)
  | createComment (prNum : Nat) (body : String)
deriving Repr, DecidableEq

/-- The environment of the handler: decoding of the payload, installation
client creation and the responses of the four outbound API operations.
Each API result is a pair (value, error), mirroring the Go multi-return;
the Go source reads both components independently. -/
structure Env where
  decodeResult : Except String PushEvent
  newClientError : Option String
  listResult : Except String (List PullRequest)
  compareResult : PullRequest → Option CommitsComparison × Option String
  updateResult : PullRequest → Option PullRequestBranchUpdateResponse × Option String
  commentResult : PullRequest → String → Option String

/-- `PRBranchUpdateHandler`: comment preamble and configured required
labels, from the application configuration. -/
structure PRBranchUpdateHandler where
  preamble : String
  labels : List String

/-- The sentinel error message produced by the platform client when the
branch update is queued asynchronously. -/
def scheduledMsg : String :=
  "job scheduled on GitHub side; try again later"

/-- The body of one loop iteration of `Handle` for a single pull request:
label gate, commit comparison (its error discarded, as in the source),
staleness test, branch update and failure comments.  Returns the calls
issued for this pull request and `some e` exactly when the Go code executes
`return err` inside the iteration. -/
def prStep (h : PRBranchUpdateHandler) (env : Env) (pr : PullRequest) :
    List APICall × Option String :=
  if (!h.labels.isEmpty) && (!hasAllLabels h.labels pr.labels) then
    ([], none)
  else
    let commitComparison := (env.compareResult pr).1
    if GetBehindBy commitComparison ≥ 1 then
      match env.updateResult pr with
      | (updateResponse, some e) =>
        if e = scheduledMsg then
          let msg := h.preamble ++ "\n\n" ++ GetMessage updateResponse
          ([APICall.compareCommits pr.baseRef pr.headRef,
            APICall.updateBranch pr.number,
            APICall.createComment pr.number msg],
           env.commentResult pr msg)
        else
          let msg := "Failed to update pull request. Error: " ++ e
          ([APICall.compareCommits pr.baseRef pr.headRef,
            APICall.updateBranch pr.number,
            APICall.createComment pr.number msg],
           env.commentResult pr msg)
      | (_, none) =>
        ([APICall.compareCommits pr.baseRef pr.headRef,
          APICall.updateBranch pr.number], none)
    else
      ([APICall.compareCommits pr.baseRef pr.headRef], none)

/-- The `for _, pr := range pullRequests` loop: sequential processing with
early exit on the first iteration that executes `return err`. -/
def runLoop (h : PRBranchUpdateHandler) (env : Env) :
    List PullRequest → List APICall × Option String
  | [] => ([], none)
  | pr :: rest =>
    match prStep h env pr with
    | (calls, some e) => (calls, some e)
    | (calls, none) =>
      let r := runLoop h env rest
      (calls ++ r.1, r.2)

/-- `func (h *PRBranchUpdateHandler) Handle(...) error`, as a function from
the environment to the trace of API calls and the returned error. -/
def Handle (h : PRBranchUpdateHandler) (env : Env) :
    List APICall × Option String :=
  match env.decodeResult with
  | .error e => ([], some ("failed to parse push event payload: " ++ e))
  | .ok pushEvent =>
    match env.newClientError with
    | some e => ([], some e)
    | none =>
      if pushEvent.ref ≠ "refs/heads/" ++ pushEvent.repoDefaultBranch then
        ([], none)
      else
        match env.listResult with
        | .error e => ([APICall.listPullRequests "open"], some e)
        | .ok pullRequests =>
          let r := runLoop h env pullRequests
          (APICall.listPullRequests "open" :: r.1, r.2)

/-! ## Helper lemmas on lower-casing -/

/-- `Char.toLower` never produces an ASCII upper-case letter. -/
theorem toLower_isUpper_eq_false (c : Char) : (Char.toLower c).isUpper = false := by
  rw [Char.toLower]
  split
  next h =>
    obtain ⟨h1, h2⟩ := h
    have hvalid : Nat.isValidChar (Char.toNat c + 32) := Or.inl (by omega)
    have hofNat : (Char.ofNat (Char.toNat c + 32)).toNat = Char.toNat c + 32 := by
      rw [Char.ofNat, dif_pos hvalid]
      rfl
    rw [Char.isUpper]
    have hle : ((Char.ofNat (Char.toNat c + 32)).val ≤ 90) = False := by
      apply eq_false
      intro hc
      have := UInt32.toNat_le_of_le (n := (Char.ofNat (Char.toNat c + 32)).val)
        (m := 90) (by decide) hc
      have h97 : 97 ≤ (Char.ofNat (Char.toNat c + 32)).toNat := by omega
      rw [Char.toNat] at h97
      omega
    simp [hle]
  next h =>
    rw [Char.isUpper]
    by_cases h65 : (65 : UInt32) ≤ c.val
    · by_cases h90 : c.val ≤ (90 : UInt32)
      · exfalso
        apply h
        constructor
        · exact UInt32.le_toNat_of_le (by decide) h65
        · exact UInt32.toNat_le_of_le (by decide) h90
      · simp [h90]
    · simp [h65]

/-- A lower-cased string never equals a string holding an upper-case letter. -/
theorem stringsToLower_ne (s label : String)
    (hup : ∃ c ∈ label.data, c.isUpper = true) : stringsToLower s ≠ label := by
  obtain ⟨c, hin, hupper⟩ := hup
  intro heq
  rw [stringsToLower] at heq
  have hdata : s.data.map Char.toLower = label.data := congrArg String.data heq
  rw [← hdata] at hin
  obtain ⟨d, _, hd⟩ := List.mem_map.mp hin
  rw [← hd] at hupper
  rw [toLower_isUpper_eq_false] at hupper
  exact Bool.false_ne_true hupper

/-- A configured label holding an upper-case letter is never found by
`contains`, whatever the pull request's labels are. -/
theorem contains_eq_false (label : String)
    (hup : ∃ c ∈ label.data, c.isUpper = true) (prLabels : List Label) :
    contains prLabels label = false := by
  rw [contains, List.any_eq_false]
  intro l _
  simp only [beq_iff_eq]
  exact stringsToLower_ne _ _ hup

/-- A concrete pull request used by witnesses. -/
def trivPr : PullRequest :=
  { number := 1, headRef := "feature", baseRef := "main", labels := [] }

/-- A concrete benign environment used by witnesses: one open pull request,
up to date, every call succeeding. -/
def trivEnv : Env :=
  { decodeResult := .ok
      { ref := "refs/heads/main", repoOwner := "acme", repoName := "widgets"
        repoDefaultBranch := "main", installationID := 1 }
    newClientError := none
    listResult := .ok [trivPr]
    compareResult := fun _ => (some { behindBy := some 0 }, none)
    updateResult := fun _ => (some { message := some "ok" }, none)
    commentResult := fun _ _ => none }

/-! ## Claims -/

/-- C3: the spec claims label matching is case-insensitive (a required label
counts as present whenever some pull-request label name equals it up to
letter case).  The code lower-cases only the pull-request side, so a
configured label written with upper-case letters never matches — not even a
pull-request label with the very same spelling.  The repository's own test
`TestHasAllLabels` expects `hasAllLabels` to return `true` for configured
labels `["Approved to Merge", "Ready to Merge"]` against pull-request
labels of the same spelling; as evaluated here the code returns `false`,
contradicting the test (and the spec).  The last conjunct shows the one
direction that does work: a lower-case configured label matches any casing
of the pull-request label. -/
theorem claim_C3_case_matching_divergence :
    Label.GetName ⟨some "Approved to Merge"⟩ = "Approved to Merge" ∧
    contains [⟨some "Approved to Merge"⟩] "Approved to Merge" = false ∧
    hasAllLabels ["Approved to Merge", "Ready to Merge"]
      [⟨some "Approved to Merge"⟩, ⟨some "Ready to Merge"⟩,
       ⟨some "Needs Review"⟩] = false ∧
    contains [⟨some "Approved To Merge"⟩] "approved to merge" = true :=
  ⟨rfl, by decide, by decide, by decide⟩

/-- C10: membership testing is one-sidedly lowercased — `contains`
lower-cases only the pull-request label names before an exact comparison,
so a configured required label holding at least one upper-case letter is
matched by no pull-request label list at all, and once such a label is
configured every pull request is skipped by the label gate (no API call,
no error). -/
theorem claim_C10_uppercase_config_label_never_matches (label : String)
    (hup : ∃ c ∈ label.data, c.isUpper = true) :
    (∀ prLabels : List Label, contains prLabels label = false) ∧
    (∀ (h : PRBranchUpdateHandler) (env : Env) (pr : PullRequest),
      label ∈ h.labels → prStep h env pr = ([], none)) := by
  refine ⟨contains_eq_false label hup, ?_⟩
  intro h env pr hmem
  have hAll : hasAllLabels h.labels pr.labels = false := by
    rw [hasAllLabels, List.all_eq_false]
    exact ⟨label, hmem, by rw [contains_eq_false label hup]; decide⟩
  have hne : h.labels.isEmpty = false := by
    cases hl : h.labels with
    | nil => rw [hl] at hmem; cases hmem
    | cons a as => rfl
  rw [prStep, hne, hAll]
  rfl

/-- Witness for C10 at the concrete label "Ready". -/
theorem claim_C10_witness :
    contains [⟨some "ready"⟩, ⟨some "Ready"⟩] "Ready" = false ∧
    prStep ⟨"preamble", ["Ready"]⟩ trivEnv trivPr = ([], none) :=
  ⟨(claim_C10_uppercase_config_label_never_matches "Ready"
      ⟨'R', by decide, by decide⟩).1 _,
   (claim_C10_uppercase_config_label_never_matches "Ready"
      ⟨'R', by decide, by decide⟩).2 _ _ _ (by decide)⟩

/-- C4: the staleness predicate is `behindBy >= 1`; when the comparison for
a pull request reads behindBy 0, the iteration issues at most the
comparison call — no branch-update call and no comment call — and continues
with the next pull request (it returns no error). -/
theorem claim_C4_behind_zero_no_action (h : PRBranchUpdateHandler)
    (env : Env) (pr : PullRequest)
    (hb : GetBehindBy (env.compareResult pr).1 = 0) :
    prStep h env pr = ([], none) ∨
      prStep h env pr = ([APICall.compareCommits pr.baseRef pr.headRef], none) := by
  rw [prStep]
  by_cases hl : ((!h.labels.isEmpty) && (!hasAllLabels h.labels pr.labels)) = true
  · left
    rw [if_pos hl]
  · right
    rw [if_neg hl]
    simp only [hb]
    rw [if_neg (by norm_num)]

/-- Witness for C4 at a concrete up-to-date pull request. -/
theorem claim_C4_witness :
    prStep ⟨"preamble", []⟩ trivEnv trivPr = ([], none) ∨
      prStep ⟨"preamble", []⟩ trivEnv trivPr =
        ([APICall.compareCommits "main" "feature"], none) :=
  claim_C4_behind_zero_no_action ⟨"preamble", []⟩ trivEnv trivPr rfl

/-- C5: a push whose ref is not exactly `refs/heads/<default branch>` makes
the handler return success (no error) with an empty call trace: no listing,
comparison, update or comment call is issued (given that the payload
decoded and the installation client was created, the steps that precede the
ref check in the source). -/
theorem claim_C5_non_default_ref_ignored (h : PRBranchUpdateHandler)
    (env : Env) (pe : PushEvent)
    (hd : env.decodeResult = .ok pe)
    (hc : env.newClientError = none)
    (hr : pe.ref ≠ "refs/heads/" ++ pe.repoDefaultBranch) :
    Handle h env = ([], none) := by
  rw [Handle, hd, hc]
  simp only []
  rw [if_pos hr]

/-- A push event to a non-default branch, for the C5 witness. -/
def featurePush : PushEvent :=
  { ref := "refs/heads/feature", repoOwner := "acme", repoName := "widgets"
    repoDefaultBranch := "main", installationID := 1 }

/-- The benign environment with the non-default-branch push, for the C5
witness. -/
def featurePushEnv : Env :=
  { trivEnv with decodeResult := .ok featurePush }

/-- Witness for C5 at a concrete push to a feature branch. -/
theorem claim_C5_witness :
    Handle ⟨"preamble", []⟩ featurePushEnv = ([], none) :=
  claim_C5_non_default_ref_ignored _ _ _ rfl rfl (by decide)

/-- C6: the label gate fires before the comparison — a pull request missing
at least one configured required label is skipped with no commit-comparison
call, no branch-update call and no comment call, and the iteration returns
no error (processing continues with the next pull request). -/
theorem claim_C6_label_gate_before_compare (h : PRBranchUpdateHandler)
    (env : Env) (pr : PullRequest)
    (h1 : h.labels ≠ [])
    (h2 : hasAllLabels h.labels pr.labels = false) :
    prStep h env pr = ([], none) := by
  have hne : h.labels.isEmpty = false := by
    cases hl : h.labels with
    | nil => exact absurd hl h1
    | cons a as => rfl
  rw [prStep, hne, h2]
  rfl

/-- Witness for C6 at a concrete pull request missing the required label. -/
theorem claim_C6_witness :
    prStep ⟨"preamble", ["ready"]⟩ trivEnv trivPr = ([], none) :=
  claim_C6_label_gate_before_compare _ trivEnv trivPr (by decide) (by decide)

/-- Passing the label gate (no configured labels, or all of them present)
makes the skip condition false. -/
theorem gate_pass {h : PRBranchUpdateHandler} {pr : PullRequest}
    (hgate : h.labels = [] ∨ hasAllLabels h.labels pr.labels = true) :
    ((!h.labels.isEmpty) && (!hasAllLabels h.labels pr.labels)) = false := by
  rcases hgate with h0 | h0
  · simp [h0]
  · simp [h0]

/-- An eligible stale pull request whose update call fails with the
scheduled-asynchronously sentinel: the iteration issues compare, update and
one comment `<preamble>\n\n<returned message>`, and returns whatever the
comment call returns. -/
theorem prStep_sentinel (h : PRBranchUpdateHandler) (env : Env)
    (pr : PullRequest) (resp : Option PullRequestBranchUpdateResponse)
    (hgate : h.labels = [] ∨ hasAllLabels h.labels pr.labels = true)
    (hb : GetBehindBy (env.compareResult pr).1 ≥ 1)
    (hu : env.updateResult pr = (resp, some scheduledMsg)) :
    prStep h env pr =
      ([APICall.compareCommits pr.baseRef pr.headRef,
        APICall.updateBranch pr.number,
        APICall.createComment pr.number
          (h.preamble ++ "\n\n" ++ GetMessage resp)],
       env.commentResult pr (h.preamble ++ "\n\n" ++ GetMessage resp)) := by
  rw [prStep, gate_pass hgate]
  rw [if_neg (by simp)]
  simp only [hu, if_pos hb]
  simp only [if_true]

/-- An eligible stale pull request whose update call fails with any other
error: the iteration issues compare, update and one comment
`Failed to update pull request. Error: <error text>`, and returns whatever
the comment call returns — the update error itself is not returned. -/
theorem prStep_update_failed (h : PRBranchUpdateHandler) (env : Env)
    (pr : PullRequest) (resp : Option PullRequestBranchUpdateResponse)
    (e : String)
    (hgate : h.labels = [] ∨ hasAllLabels h.labels pr.labels = true)
    (hb : GetBehindBy (env.compareResult pr).1 ≥ 1)
    (hu : env.updateResult pr = (resp, some e))
    (hs : e ≠ scheduledMsg) :
    prStep h env pr =
      ([APICall.compareCommits pr.baseRef pr.headRef,
        APICall.updateBranch pr.number,
        APICall.createComment pr.number
          ("Failed to update pull request. Error: " ++ e)],
       env.commentResult pr ("Failed to update pull request. Error: " ++ e)) := by
  rw [prStep, gate_pass hgate]
  rw [if_neg (by simp)]
  simp only [hu, if_pos hb]
  rw [if_neg hs]

/-- An eligible stale pull request whose update call succeeds: the
iteration issues compare and update only, and returns no error. -/
theorem prStep_update_ok (h : PRBranchUpdateHandler) (env : Env)
    (pr : PullRequest)
    (hgate : h.labels = [] ∨ hasAllLabels h.labels pr.labels = true)
    (hb : GetBehindBy (env.compareResult pr).1 ≥ 1)
    (hu : (env.updateResult pr).2 = none) :
    prStep h env pr =
      ([APICall.compareCommits pr.baseRef pr.headRef,
        APICall.updateBranch pr.number], none) := by
  rcases hq : env.updateResult pr with ⟨resp, uerr⟩
  rw [hq] at hu
  simp only at hu
  subst hu
  rw [prStep, gate_pass hgate]
  rw [if_neg (by simp)]
  simp only [hq, if_pos hb]

/-- Is a call a branch-update call? -/
def isUpdateCall : APICall → Bool
  | .updateBranch _ => true
  | _ => false

/-- Is a call a comment-creation call? -/
def isCommentCall : APICall → Bool
  | .createComment _ _ => true
  | _ => false

/-- A second listed pull request, for abort-behaviour witnesses. -/
def prB : PullRequest :=
  { number := 2, headRef := "b", baseRef := "main", labels := [] }

/-- Environment: stale pull request, update queued with the sentinel
message, comment accepted. -/
def envSched : Env :=
  { trivEnv with
    compareResult := fun _ => (some { behindBy := some 3 }, none)
    updateResult := fun _ => (some { message := some "queued" }, some scheduledMsg) }

/-- Environment: like `envSched` but the comment call is rejected. -/
def envSchedBadComment : Env :=
  { envSched with commentResult := fun _ _ => some "comment rejected" }

/-- Environment: stale pull request whose update call succeeds. -/
def envStaleOk : Env :=
  { trivEnv with
    compareResult := fun _ => (some { behindBy := some 3 }, none) }

/-- C7: when the branch-update call fails with the sentinel message
"job scheduled on GitHub side; try again later", the iteration creates
exactly one comment whose body is the configured preamble, a blank line and
the platform's returned message, and — the comment call succeeding —
returns no error, so processing continues with the next pull request. -/
theorem claim_C7_sentinel_comment_then_continue (h : PRBranchUpdateHandler)
    (env : Env) (pr : PullRequest)
    (resp : Option PullRequestBranchUpdateResponse)
    (hgate : h.labels = [] ∨ hasAllLabels h.labels pr.labels = true)
    (hb : GetBehindBy (env.compareResult pr).1 ≥ 1)
    (hu : env.updateResult pr = (resp, some scheduledMsg))
    (hcm : env.commentResult pr (h.preamble ++ "\n\n" ++ GetMessage resp) = none) :
    prStep h env pr =
      ([APICall.compareCommits pr.baseRef pr.headRef,
        APICall.updateBranch pr.number,
        APICall.createComment pr.number
          (h.preamble ++ "\n\n" ++ GetMessage resp)], none) := by
  rw [prStep_sentinel h env pr resp hgate hb hu, hcm]

/-- Witness for C7: one stale pull request, update queued with the
sentinel, comment accepted. -/
theorem claim_C7_witness :
    prStep ⟨"Auto-update:", []⟩ envSched trivPr =
      ([APICall.compareCommits "main" "feature",
        APICall.updateBranch 1,
        APICall.createComment 1 "Auto-update:\n\nqueued"], none) :=
  claim_C7_sentinel_comment_then_continue ⟨"Auto-update:", []⟩ envSched trivPr
    (some ⟨some "queued"⟩) (Or.inl rfl) (by decide) rfl rfl

/-- C8: if posting the informational comment of the sentinel branch itself
fails, that comment error is returned and the remaining pull requests
(`rest`) are not processed at all. -/
theorem claim_C8_sentinel_comment_failure_fatal (h : PRBranchUpdateHandler)
    (env : Env) (pr : PullRequest) (rest : List PullRequest)
    (resp : Option PullRequestBranchUpdateResponse) (ce : String)
    (hgate : h.labels = [] ∨ hasAllLabels h.labels pr.labels = true)
    (hb : GetBehindBy (env.compareResult pr).1 ≥ 1)
    (hu : env.updateResult pr = (resp, some scheduledMsg))
    (hcm : env.commentResult pr (h.preamble ++ "\n\n" ++ GetMessage resp) =
      some ce) :
    runLoop h env (pr :: rest) =
      ([APICall.compareCommits pr.baseRef pr.headRef,
        APICall.updateBranch pr.number,
        APICall.createComment pr.number
          (h.preamble ++ "\n\n" ++ GetMessage resp)], some ce) := by
  have hstep := prStep_sentinel h env pr resp hgate hb hu
  rw [hcm] at hstep
  simp only [runLoop, hstep]

/-- Witness for C8: the sentinel-branch comment is rejected, so the second
listed pull request is never examined. -/
theorem claim_C8_witness :
    runLoop ⟨"Auto-update:", []⟩ envSchedBadComment (trivPr :: [prB]) =
      ([APICall.compareCommits "main" "feature",
        APICall.updateBranch 1,
        APICall.createComment 1 "Auto-update:\n\nqueued"],
       some "comment rejected") :=
  claim_C8_sentinel_comment_failure_fatal ⟨"Auto-update:", []⟩
    envSchedBadComment trivPr [prB] (some ⟨some "queued"⟩) "comment rejected"
    (Or.inl rfl) (by decide) rfl rfl

/-- C9: an eligible (label gate passed) stale (`behindBy >= 1`) pull
request receives exactly one branch-update call in its iteration, and if
that update call succeeds no comment call is issued for it. -/
theorem claim_C9_one_update_no_comment_on_success (h : PRBranchUpdateHandler)
    (env : Env) (pr : PullRequest)
    (hgate : h.labels = [] ∨ hasAllLabels h.labels pr.labels = true)
    (hb : GetBehindBy (env.compareResult pr).1 ≥ 1) :
    (prStep h env pr).1.countP (fun c => isUpdateCall c) = 1 ∧
    ((env.updateResult pr).2 = none →
      (prStep h env pr).1.countP (fun c => isCommentCall c) = 0) := by
  rcases hq : env.updateResult pr with ⟨resp, uerr⟩
  cases uerr with
  | none =>
    rw [prStep_update_ok h env pr hgate hb (by rw [hq])]
    constructor
    · simp [List.countP_cons, isUpdateCall, isCommentCall]
    · intro _
      simp [List.countP_cons, isUpdateCall, isCommentCall]
  | some e =>
    by_cases hs : e = scheduledMsg
    · subst hs
      rw [prStep_sentinel h env pr resp hgate hb hq]
      refine ⟨?_, fun hn => by simp at hn⟩
      simp [List.countP_cons, isUpdateCall, isCommentCall]
    · rw [prStep_update_failed h env pr resp e hgate hb hq hs]
      refine ⟨?_, fun hn => by simp at hn⟩
      simp [List.countP_cons, isUpdateCall, isCommentCall]

/-- Witness for C9: a stale pull request with no configured labels and a
succeeding update call. -/
theorem claim_C9_witness :
    (prStep ⟨"preamble", []⟩ envStaleOk trivPr).1.countP
      (fun c => isUpdateCall c) = 1 ∧
    ((envStaleOk.updateResult trivPr).2 = none →
      (prStep ⟨"preamble", []⟩ envStaleOk trivPr).1.countP
        (fun c => isCommentCall c) = 0) :=
  claim_C9_one_update_no_comment_on_success ⟨"preamble", []⟩ envStaleOk trivPr
    (Or.inl rfl) (by decide)

/-- Environment: stale pull request, update failing with a non-sentinel
error "boom", comment accepted. -/
def envBoom : Env :=
  { trivEnv with
    compareResult := fun _ => (some { behindBy := some 1 }, none)
    updateResult := fun _ => (none, some "boom") }

/-- C1 counterexample: the single listed pull request is stale, its update
call fails with the non-sentinel error "boom", and the failure comment is
accepted.  The claim states the handler then returns a non-nil error equal
to the update error; in fact the handler posts the comment and returns
`none` (nil) — the update error is dropped and processing would continue
with any further pull requests. -/
theorem claim_C1_counterexample :
    (envBoom.updateResult trivPr).2 = some "boom" ∧
    "boom" ≠ scheduledMsg ∧
    Handle ⟨"preamble", []⟩ envBoom =
      ([APICall.listPullRequests "open",
        APICall.compareCommits "main" "feature",
        APICall.updateBranch 1,
        APICall.createComment 1 "Failed to update pull request. Error: boom"],
       none) :=
  ⟨rfl, by decide, by decide⟩

/-- C1 amended: on a non-sentinel update failure the iteration posts one
comment holding the literal error text and returns exactly the comment
call's result: if the comment call fails, its error is returned and the
remaining pull requests are aborted; if the comment call succeeds, no
error is returned for this pull request (the update error itself is never
propagated) and processing continues. -/
theorem claim_C1_amended (h : PRBranchUpdateHandler) (env : Env)
    (pr : PullRequest) (resp : Option PullRequestBranchUpdateResponse)
    (e : String)
    (hgate : h.labels = [] ∨ hasAllLabels h.labels pr.labels = true)
    (hb : GetBehindBy (env.compareResult pr).1 ≥ 1)
    (hu : env.updateResult pr = (resp, some e))
    (hs : e ≠ scheduledMsg) :
    prStep h env pr =
      ([APICall.compareCommits pr.baseRef pr.headRef,
        APICall.updateBranch pr.number,
        APICall.createComment pr.number
          ("Failed to update pull request. Error: " ++ e)],
       env.commentResult pr ("Failed to update pull request. Error: " ++ e)) ∧
    (∀ (rest : List PullRequest) (ce : String),
      env.commentResult pr ("Failed to update pull request. Error: " ++ e) =
        some ce →
      runLoop h env (pr :: rest) =
        ([APICall.compareCommits pr.baseRef pr.headRef,
          APICall.updateBranch pr.number,
          APICall.createComment pr.number
            ("Failed to update pull request. Error: " ++ e)], some ce)) := by
  have hstep := prStep_update_failed h env pr resp e hgate hb hu hs
  refine ⟨hstep, ?_⟩
  intro rest ce hcm
  rw [hcm] at hstep
  simp only [runLoop, hstep]

/-- Witness for C1 amended at the concrete failing environment. -/
theorem claim_C1_amended_witness :
    (prStep ⟨"preamble", []⟩ envBoom trivPr =
      ([APICall.compareCommits "main" "feature",
        APICall.updateBranch 1,
        APICall.createComment 1 "Failed to update pull request. Error: boom"],
       envBoom.commentResult trivPr
         "Failed to update pull request. Error: boom") ∧
    (∀ (rest : List PullRequest) (ce : String),
      envBoom.commentResult trivPr
          "Failed to update pull request. Error: boom" = some ce →
      runLoop ⟨"preamble", []⟩ envBoom (trivPr :: rest) =
        ([APICall.compareCommits "main" "feature",
          APICall.updateBranch 1,
          APICall.createComment 1
            "Failed to update pull request. Error: boom"], some ce))) :=
  claim_C1_amended ⟨"preamble", []⟩ envBoom trivPr none "boom"
    (Or.inl rfl) (by decide) rfl (by decide)

/-- First listed pull request, whose comparison call fails, for the C2
counterexample. -/
def prA : PullRequest :=
  { number := 1, headRef := "a", baseRef := "main", labels := [] }

/-- Environment: the comparison call for pull request 1 fails with
"compare exploded" (and returns a nil comparison, as the platform client
does on error); pull request 2 compares cleanly as up to date. -/
def envCompareFail : Env :=
  { trivEnv with
    listResult := .ok [prA, prB]
    compareResult := fun pr =>
      if pr.number = 1 then (none, some "compare exploded")
      else (some { behindBy := some 0 }, none) }

/-- C2 counterexample: the comparison call for the first pull request
fails, yet the handler neither returns that error nor aborts: it treats
the nil comparison as behindBy 0, goes on to compare the second pull
request, and returns success. -/
theorem claim_C2_counterexample :
    (envCompareFail.compareResult prA).2 = some "compare exploded" ∧
    Handle ⟨"preamble", []⟩ envCompareFail =
      ([APICall.listPullRequests "open",
        APICall.compareCommits "main" "a",
        APICall.compareCommits "main" "b"], none) :=
  ⟨by decide, by decide⟩

/-- C2 amended: the commit-comparison error is discarded — the handler's
entire behaviour (call trace and returned error) is independent of the
error component of every comparison result; a failed comparison only
influences processing through its (nil) comparison value. -/
theorem claim_C2_amended (h : PRBranchUpdateHandler) (env env' : Env)
    (hd : env'.decodeResult = env.decodeResult)
    (hc : env'.newClientError = env.newClientError)
    (hl : env'.listResult = env.listResult)
    (hcmp : ∀ pr, (env'.compareResult pr).1 = (env.compareResult pr).1)
    (hup : env'.updateResult = env.updateResult)
    (hcm : env'.commentResult = env.commentResult) :
    Handle h env' = Handle h env := by
  have hstep : ∀ pr, prStep h env' pr = prStep h env pr := by
    intro pr
    rw [prStep, prStep, hcmp pr, hup, hcm]
  have hloop : ∀ prs, runLoop h env' prs = runLoop h env prs := by
    intro prs
    induction prs with
    | nil => rfl
    | cons pr rest ih => simp only [runLoop, hstep pr, ih]
  rw [Handle, Handle, hd, hc, hl]
  simp only [hloop]

/-- Environment identical to `envCompareFail` except that every comparison
error is cleared, for the C2 amended witness. -/
def envCompareFailCleared : Env :=
  { envCompareFail with
    compareResult := fun pr => ((envCompareFail.compareResult pr).1, none) }

/-- Witness for C2 amended: clearing the comparison errors leaves the
handler's behaviour unchanged. -/
theorem claim_C2_amended_witness :
    Handle ⟨"preamble", []⟩ envCompareFailCleared =
      Handle ⟨"preamble", []⟩ envCompareFail :=
  claim_C2_amended ⟨"preamble", []⟩ envCompareFail envCompareFailCleared
    rfl rfl rfl (fun _ => rfl) rfl rfl

end PRUpdater
